import Mathlib

/-!
Verification of the image-reference resolution protocol of the kitchen
repository: the Reference Loader (src/shared/image-reference-loader.ts,
function loadImageReference) and the Digest Resolver
(scripts/resolve-image-digests.sh, embedded below as resolverScript).

Strings are modelled by the Lean String type (a packed List Char); string
operations used by the code are defined through the underlying character
list so that their behaviour is explicit.  The Resolver is a bash script
running under set -euo pipefail: it is embedded as a function from its
inputs (.env file contents, credential validity, the ECR registry modelled
as an oracle) to an Except value paired with the list of registry queries
it issued, plus a separate function giving the manifest file state after
the run.
-/

namespace Kitchen

/-- Uppercase ASCII letter test, as used by the bash character class [A-Z]. -/
def isUpperAZ (c : Char) : Bool := 'A' ≤ c && c ≤ 'Z'

/-- Lowercase hex digit test, as used by the bash character class [a-f0-9]. -/
def isLowerHexDigit (c : Char) : Bool := ('0' ≤ c && c ≤ '9') || ('a' ≤ c && c ≤ 'f')

/-- ASCII lowercasing of one character, as bash parameter expansion does per character. -/
def lcChar (c : Char) : Char := if isUpperAZ c then Char.ofNat (c.toNat + 32) else c

/-- ASCII uppercasing of one character, as the JS toUpperCase call does on ASCII names. -/
def ucChar (c : Char) : Char := if 'a' ≤ c && c ≤ 'z' then Char.ofNat (c.toNat - 32) else c

/-- ASCII lowercasing of a string, modelling bash parameter expansion with the comma-comma operator. -/
def lcStr (s : String) : String := ⟨s.data.map lcChar⟩

/-- ASCII uppercasing of a string, modelling repoName.toUpperCase() in the Loader. -/
def ucStr (s : String) : String := ⟨s.data.map ucChar⟩

/-- Drop the last n characters of a string. -/
def strDropRight (s : String) (n : Nat) : String := ⟨s.data.take (s.data.length - n)⟩

/-- Drop the first n characters of a string. -/
def strDrop (s : String) (n : Nat) : String := ⟨s.data.drop n⟩

/-- Suffix test on strings. -/
def strEndsWith (s t : String) : Bool := t.data.isSuffixOf s.data

/-- Prefix test on strings. -/
def strStartsWith (s t : String) : Bool := t.data.isPrefixOf s.data

/-- Character-wise predicate test on a string. -/
def strAll (s : String) (p : Char → Bool) : Bool := s.data.all p

/-- Length of a string in characters. -/
def strLen (s : String) : Nat := s.data.length

/-!
Reference Loader, from src/shared/image-reference-loader.ts.

The manifest file state is modelled as
  Option (Except String Manifest):
none when no file exists at the well-known path (fs.existsSync false);
some (.error e) when the file exists but JSON.parse throws with message e;
some (.ok m) when the file exists and parses to the object m.
The process environment is modelled as a partial map from variable names to
values (none models an unset variable).  The Loader returns the resolved
reference string together with the list of warnings printed via
console.warn.
-/

/-- Parsed manifest entry: a JSON object whose tag and digest fields may each be absent. -/
structure ManifestEntry where
  tag : Option String
  digest : Option String
deriving DecidableEq, Repr

/-- Parsed manifest object: a mapping from repository name to entry. -/
abbrev Manifest := List (String × ManifestEntry)

/-- Object property lookup on the parsed manifest, modelling manifest[repoName]. -/
def lookupEntry (m : Manifest) (k : String) : Option ManifestEntry := m.lookup k

/-- Environment variable name derived in the Loader: repoName.toUpperCase() + "_IMAGE_TAG". -/
def envVarName (repoName : String) : String := ucStr repoName ++ "_IMAGE_TAG"

/-- Fallback tier of the Loader: process.env[envVarName] with JS truthiness, else "latest". -/
def envFallback (repoName : String) (env : String → Option String) : String :=
  match env (envVarName repoName) with
  | some v => if v = "" then "latest" else v
  | none => "latest"

/-- Warning message printed by the Loader when JSON.parse throws with message e. -/
def parseWarning (e : String) : String :=
  "Warning: Failed to parse image-manifest.json: " ++ e

/-- Reference Loader loadImageReference, translated from
src/shared/image-reference-loader.ts.  Returns the resolved reference and
the list of warnings emitted.  The digest read from the manifest is
subject only to a JS truthiness test (undefined and the empty string are
falsy); any other string is returned verbatim. -/
def loadImageReference (repoName : String)
    (manifestFile : Option (Except String Manifest))
    (env : String → Option String) : String × List String :=
  match manifestFile with
  | none => (envFallback repoName env, [])
  | some (Except.error e) => (envFallback repoName env, [parseWarning e])
  | some (Except.ok manifest) =>
    match (lookupEntry manifest repoName).bind (fun entry => entry.digest) with
    | some d => if d = "" then (envFallback repoName env, []) else (d, [])
    | none => (envFallback repoName env, [])

/-- Resolution order transcribed from the words of the specification, for
comparison with loadImageReference: return the digest of the entry verbatim
when the manifest file exists, parses, and contains an entry for the
service with a non-empty digest field; otherwise the environment variable
value when set and non-empty; otherwise the literal "latest".  An entry
missing its digest field falls through to the environment tier. -/
def loadImageReferenceSpec (repoName : String)
    (manifestFile : Option (Except String Manifest))
    (env : String → Option String) : String :=
  let envTier : String :=
    match env (envVarName repoName) with
    | some v => if v ≠ "" then v else "latest"
    | none => "latest"
  match manifestFile with
  | some (Except.ok m) =>
    match (lookupEntry m repoName).bind (fun entry => entry.digest) with
    | some d => if d ≠ "" then d else envTier
    | none => envTier
  | _ => envTier

/-!
Digest Resolver, from scripts/resolve-image-digests.sh (bash, set -euo
pipefail).  The .env file is modelled as a list of (name, value) pairs
(one per line, split at the first equals sign); the ECR registry as an
oracle reg : String → String → Option String where none models a failing
aws ecr describe-images invocation and some out models a successful
invocation printing out (possibly the literal text "None" when the query
matched no image).  Each component of the run also reports the list of
(repository, tag) registry queries it issued.
-/

/-- Digest shape test is_digest, modelling the bash regex match against
caret sha256 colon [a-f0-9] exactly 64 end. -/
def is_digest (s : String) : Bool :=
  strStartsWith s "sha256:" && strLen (strDrop s 7) == 64
    && strAll (strDrop s 7) isLowerHexDigit

/-- Variable-name filter of the Resolver main loop, modelling the regex
match against caret [A-Z] one-or-more underscore IMAGE underscore TAG end. -/
def matchesTagVar (name : String) : Bool :=
  strEndsWith name "_IMAGE_TAG" && strLen (strDropRight name 10) != 0
    && strAll (strDropRight name 10) isUpperAZ

/-- var_to_repo: strip one trailing _IMAGE_TAG suffix if present, then
ASCII-lowercase, as the bash percent and comma-comma expansions do. -/
def var_to_repo (v : String) : String :=
  if strEndsWith v "_IMAGE_TAG" then lcStr (strDropRight v 10) else lcStr v

/-- resolve_digest: pass a digest-shaped value through unchanged without a
registry query; otherwise query the registry and fail the run (set -e)
when the aws invocation fails or reports no image.  The second component
is the list of registry queries issued. -/
def resolve_digest (reg : String → String → Option String) (repo tag : String) :
    Except String String × List (String × String) :=
  if is_digest tag then (Except.ok tag, [])
  else
    match reg repo tag with
    | none =>
      (Except.error ("aws ecr describe-images failed for " ++ repo ++ ":" ++ tag),
       [(repo, tag)])
    | some out =>
      if out = "" ∨ out = "None" then
        (Except.error ("Error: Image " ++ repo ++ ":" ++ tag ++ " not found in ECR"),
         [(repo, tag)])
      else (Except.ok out, [(repo, tag)])

/-- Successful-resolution oracle: the digest resolve_digest would return,
none when it would abort the run. -/
def resolveOpt (reg : String → String → Option String) (repo tag : String) :
    Option String :=
  if is_digest tag then some tag
  else
    match reg repo tag with
    | none => none
    | some out => if out = "" ∨ out = "None" then none else some out

/-- Manifest entry produced by the Resolver: both fields always present. -/
structure ResolvedEntry where
  tag : String
  digest : String
deriving DecidableEq, Repr

/-- Main loop of the Resolver: process the .env lines in order, skip lines
whose name fails the variable-name filter, resolve each remaining value,
and abort the whole run on the first failure (set -e).  Records the
original tag, or "latest" when the input value was already a digest. -/
def processLines (reg : String → String → Option String) :
    List (String × String) →
      Except String (List (String × ResolvedEntry)) × List (String × String)
  | [] => (Except.ok [], [])
  | (name, value) :: rest =>
    if matchesTagVar name then
      match resolve_digest reg (var_to_repo name) value with
      | (Except.error e, q) => (Except.error e, q)
      | (Except.ok d, q) =>
        match processLines reg rest with
        | (Except.error e, q2) => (Except.error e, q ++ q2)
        | (Except.ok m, q2) =>
          (Except.ok ((var_to_repo name,
            ⟨if is_digest value then "latest" else value, d⟩) :: m), q ++ q2)
    else processLines reg rest

/-- Whole Resolver run: exit 1 when the .env file is absent; then exit 1
when AWS credentials are not usable (before any resolution); then run the
main loop.  Returns the manifest content built, or the error that aborted
the run, together with every registry query issued. -/
def resolverScript (envFile : Option (List (String × String))) (credsOk : Bool)
    (reg : String → String → Option String) :
    Except String (List (String × ResolvedEntry)) × List (String × String) :=
  match envFile with
  | none => (Except.error "Error: .env not found", [])
  | some lines =>
    if credsOk then processLines reg lines
    else (Except.error "Error: AWS credentials not configured", [])

/-- One entry of the manifest JSON text, following the printf format of the script. -/
def renderEntry (e : String × ResolvedEntry) : String :=
  "  \"" ++ e.1 ++ "\": \x7b\n    \"tag\": \"" ++ e.2.tag
    ++ "\",\n    \"digest\": \"" ++ e.2.digest ++ "\"\n  \x7d"

/-- Body lines of the manifest JSON text: printf of each collected array
element followed by a newline (a single bare newline when the array is
empty). -/
def renderLines (xs : List String) : String :=
  match xs with
  | [] => "\n"
  | _ => String.join (xs.map (fun x => x ++ "\n"))

/-- Manifest file text written by the final block of the script: an opening
brace line, the collected entries separated by comma lines, a closing
brace line. -/
def renderManifest (m : List (String × ResolvedEntry)) : String :=
  "\x7b\n" ++ renderLines (List.intersperse "," (m.map renderEntry)) ++ "\x7d\n"

/-- Manifest file state on disk after a Resolver run: the redirection at
the end of the script runs only when every prior command succeeded, so on
any aborted run the prior file content is untouched. -/
def resolverFileState (envFile : Option (List (String × String))) (credsOk : Bool)
    (reg : String → String → Option String) (prior : Option String) : Option String :=
  match (resolverScript envFile credsOk reg).1 with
  | Except.error _ => prior
  | Except.ok m => some (renderManifest m)

/-- Error test on Except values. -/
def isErr {ε α : Type} : Except ε α → Bool
  | Except.error _ => true
  | Except.ok _ => false

/-!
Helper lemmas shared by the claim theorems, and concrete fixtures used by
witnesses.
-/

/-- Environment fallback tier rewritten with the set-and-non-empty phrasing. -/
theorem envFallback_eq (repoName : String) (env : String → Option String) :
    envFallback repoName env =
      match env (envVarName repoName) with
      | some v => if v ≠ "" then v else "latest"
      | none => "latest" := by
  unfold envFallback
  cases env (envVarName repoName) with
  | none => rfl
  | some v => by_cases hv : v = "" <;> simp [hv]

/-- resolve_digest succeeds with d exactly when the resolution oracle gives d. -/
theorem resolve_digest_ok_iff (reg : String → String → Option String) (repo tag d : String) :
    (resolve_digest reg repo tag).1 = Except.ok d ↔ resolveOpt reg repo tag = some d := by
  unfold resolve_digest resolveOpt
  by_cases hd : is_digest tag
  · simp [hd]
  · simp only [hd, if_false, Bool.false_eq_true]
    cases reg repo tag with
    | none => simp
    | some out =>
      by_cases ho : out = "" ∨ out = "None" <;> simp [ho]

/-- Main loop behaviour depends only on the lines whose name passes the filter. -/
theorem processLines_filter (reg : String → String → Option String) :
    ∀ lines, processLines reg lines =
      processLines reg (lines.filter (fun nv => matchesTagVar nv.1))
  | [] => rfl
  | (n, v) :: rest => by
    by_cases hm : matchesTagVar n
    · rw [List.filter_cons_of_pos (by simpa using hm)]
      rw [processLines, processLines, if_pos hm, if_pos hm,
        processLines_filter reg rest]
    · rw [List.filter_cons_of_neg (by simpa using hm)]
      rw [processLines, if_neg hm, processLines_filter reg rest]

/-- Main loop aborts whenever some processed line fails to resolve. -/
theorem processLines_err (reg : String → String → Option String) :
    ∀ lines, (∃ nv ∈ lines.filter (fun nv => matchesTagVar nv.1),
        resolveOpt reg (var_to_repo nv.1) nv.2 = none) →
      isErr (processLines reg lines).1 = true
  | [], h => by simp at h
  | (n, v) :: rest, h => by
    by_cases hm : matchesTagVar n
    · rw [List.filter_cons_of_pos (by simpa using hm)] at h
      rw [processLines, if_pos hm]
      split
      · rfl
      · rename_i d q heq
        have hok : (resolve_digest reg (var_to_repo n) v).1 = Except.ok d := by
          rw [heq]
        rw [resolve_digest_ok_iff] at hok
        have hrest : ∃ nv ∈ rest.filter (fun nv => matchesTagVar nv.1),
            resolveOpt reg (var_to_repo nv.1) nv.2 = none := by
          rcases h with ⟨nv, hmem, hnone⟩
          rcases List.mem_cons.mp hmem with heq2 | hmem2
          · subst heq2
            rw [hok] at hnone
            cases hnone
          · exact ⟨nv, hmem2, hnone⟩
        have hihr := processLines_err reg rest hrest
        split
        · rfl
        · rename_i m q2 heq2
          rw [heq2] at hihr
          simp [isErr] at hihr
    · rw [List.filter_cons_of_neg (by simpa using hm)] at h
      rw [processLines, if_neg hm]
      exact processLines_err reg rest h

/-- Manifest content built by a fully successful run: one entry per
processed line, in order, keyed by the derived repository name, recording
the original tag (or "latest" when the input was already a digest) and the
resolved digest. -/
def resolvedEntries (reg : String → String → Option String)
    (lines : List (String × String)) : List (String × ResolvedEntry) :=
  (lines.filter (fun nv => matchesTagVar nv.1)).map
    (fun nv => (var_to_repo nv.1,
      ⟨if is_digest nv.2 then "latest" else nv.2,
       (resolveOpt reg (var_to_repo nv.1) nv.2).getD ""⟩))

/-- Main loop result on a run where every processed line resolves. -/
theorem processLines_ok (reg : String → String → Option String) :
    ∀ lines, (∀ nv ∈ lines.filter (fun nv => matchesTagVar nv.1),
        (resolveOpt reg (var_to_repo nv.1) nv.2).isSome = true) →
      (processLines reg lines).1 = Except.ok (resolvedEntries reg lines)
  | [], _ => rfl
  | (n, v) :: rest, h => by
    by_cases hm : matchesTagVar n
    · rw [List.filter_cons_of_pos (by simpa using hm)] at h
      have hhead := h (n, v) (List.mem_cons_self _ _)
      have hrest : ∀ nv ∈ rest.filter (fun nv => matchesTagVar nv.1),
          (resolveOpt reg (var_to_repo nv.1) nv.2).isSome = true :=
        fun nv hmem => h nv (List.mem_cons_of_mem _ hmem)
      have ihr := processLines_ok reg rest hrest
      cases hro : resolveOpt reg (var_to_repo n) v with
      | none => rw [hro] at hhead; cases hhead
      | some d =>
        have hrd : (resolve_digest reg (var_to_repo n) v).1 = Except.ok d :=
          (resolve_digest_ok_iff reg (var_to_repo n) v d).mpr hro
        rw [processLines, if_pos hm]
        split
        · rename_i e q heq
          rw [heq] at hrd
          cases hrd
        · rename_i d2 q heq
          have hd2 : d2 = d := by
            have hfst : (resolve_digest reg (var_to_repo n) v).1 = Except.ok d2 := by
              rw [heq]
            rw [hrd] at hfst
            exact (Except.ok.inj hfst).symm
          subst hd2
          split
          · rename_i e q2 heq2
            rw [heq2] at ihr
            cases ihr
          · rename_i m q2 heq2
            rw [heq2] at ihr
            have hmr : m = resolvedEntries reg rest := Except.ok.inj ihr
            subst hmr
            unfold resolvedEntries
            rw [List.filter_cons_of_pos (by simpa using hm)]
            simp only [List.map_cons]
            congr 2
            rw [hro]
            rfl
    · rw [List.filter_cons_of_neg (by simpa using hm)] at h
      rw [processLines, if_neg hm]
      rw [processLines_ok reg rest h]
      unfold resolvedEntries
      rw [List.filter_cons_of_neg (by simpa using hm)]

/-- Concrete well-formed digest made of the letter a, used by witnesses. -/
def D64a : String := "sha256:aaaaaaaaaaaaaaaaaaaaaaaaaaaaaaaaaaaaaaaaaaaaaaaaaaaaaaaaaaaaaaaa"

/-- Concrete well-formed digest made of the letter b, used by witnesses. -/
def D64b : String := "sha256:bbbbbbbbbbbbbbbbbbbbbbbbbbbbbbbbbbbbbbbbbbbbbbbbbbbbbbbbbbbbbbbb"

/-- Concrete registry that only knows the chef repository at tag v1. -/
def regChefV1 : String → String → Option String :=
  fun repo tag => if repo = "chef" ∧ tag = "v1" then some D64a else none

/-- Concrete parsed manifest whose chef entry carries a malformed digest value. -/
def badDigestManifest : Manifest := [("chef", ⟨some "v1", some "not-a-digest"⟩)]

/-- Concrete environment declaring CHEF_IMAGE_TAG as v2. -/
def badDigestEnv : String → Option String :=
  fun n => if n = "CHEF_IMAGE_TAG" then some "v2" else none

/-!
Claim theorems.
-/

/-- Claim C1: for every service name, manifest file state and environment,
loadImageReference resolves in order manifest digest (file exists, parses,
entry present with non-empty digest field, returned verbatim), then the
environment variable named from the uppercased service name when set and
non-empty, then the literal "latest"; an entry missing its digest field
falls through exactly like an absent entry.  Stated as equality with the
tier function loadImageReferenceSpec transcribed from those words. -/
theorem loadImageReference_refines_spec (repoName : String)
    (manifestFile : Option (Except String Manifest)) (env : String → Option String) :
    (loadImageReference repoName manifestFile env).1 =
      loadImageReferenceSpec repoName manifestFile env := by
  unfold loadImageReference loadImageReferenceSpec
  rcases manifestFile with _ | mf
  · simpa using envFallback_eq repoName env
  · rcases mf with e | m
    · simpa using envFallback_eq repoName env
    · cases h : (lookupEntry m repoName).bind (fun entry => entry.digest) with
      | none =>
        simp only [h]
        simpa using envFallback_eq repoName env
      | some d =>
        simp only [h]
        by_cases hd : d = "" <;> simp [hd]
        simpa using envFallback_eq repoName env

/-- Claim C2, counterexample: with a manifest entry for chef whose digest
field holds the non-empty malformed value not-a-digest and with
CHEF_IMAGE_TAG set to v2, the Loader returns the malformed value verbatim
instead of falling through to the environment tier as the claim states. -/
theorem loader_no_digest_validation_cex :
    is_digest "not-a-digest" = false ∧
    envFallback "chef" badDigestEnv = "v2" ∧
    (loadImageReference "chef" (some (Except.ok badDigestManifest)) badDigestEnv).1 =
      "not-a-digest" ∧
    "not-a-digest" ≠ "v2" :=
  ⟨by decide, by decide, by decide, by decide⟩

/-- Claim C2, amended: the Loader performs no digest pattern validation;
every non-empty digest field value, well-formed or not, is returned
verbatim, and only a missing or empty digest falls through to the next
resolution tier. -/
theorem loader_returns_nonempty_digest_verbatim (repoName d : String) (m : Manifest)
    (env : String → Option String)
    (h : (lookupEntry m repoName).bind (fun entry => entry.digest) = some d)
    (hd : d ≠ "") :
    (loadImageReference repoName (some (Except.ok m)) env).1 = d := by
  have hred : loadImageReference repoName (some (Except.ok m)) env =
      match (lookupEntry m repoName).bind (fun entry => entry.digest) with
      | some d => if d = "" then (envFallback repoName env, []) else (d, [])
      | none => (envFallback repoName env, []) := rfl
  rw [hred, h]
  simp [hd]

/-- Claim C2, amended, witness at the concrete malformed-digest manifest. -/
theorem loader_returns_nonempty_digest_verbatim_witness :
    (lookupEntry badDigestManifest "chef").bind (fun entry => entry.digest) =
      some "not-a-digest" ∧
    "not-a-digest" ≠ "" ∧
    (loadImageReference "chef" (some (Except.ok badDigestManifest)) badDigestEnv).1 =
      "not-a-digest" :=
  ⟨by decide, by decide,
   loader_returns_nonempty_digest_verbatim "chef" "not-a-digest" badDigestManifest
     badDigestEnv (by decide) (by decide)⟩

/-- Claim C3: whenever some processed tag declaration fails to resolve in
the registry, the whole Resolver run fails and the manifest file is not
written or modified: the prior file state, whatever it was, is returned
untouched. -/
theorem resolver_all_or_nothing (lines : List (String × String)) (credsOk : Bool)
    (reg : String → String → Option String) (prior : Option String)
    (h : ∃ nv ∈ lines.filter (fun nv => matchesTagVar nv.1),
        resolveOpt reg (var_to_repo nv.1) nv.2 = none) :
    isErr (resolverScript (some lines) credsOk reg).1 = true ∧
    resolverFileState (some lines) credsOk reg prior = prior := by
  have herr : isErr (resolverScript (some lines) credsOk reg).1 = true := by
    unfold resolverScript
    by_cases hc : credsOk
    · simp only [hc, if_true]
      exact processLines_err reg lines h
    · simp only [hc, if_false, Bool.false_eq_true]
      rfl
  refine ⟨herr, ?_⟩
  unfold resolverFileState
  cases hres : (resolverScript (some lines) credsOk reg).1 with
  | error e => rfl
  | ok m =>
    rw [hres] at herr
    simp [isErr] at herr

/-- Claim C3, witness: chef resolves, prepper does not, the run fails and a
pre-existing manifest file is left byte-for-byte as it was. -/
theorem resolver_all_or_nothing_witness :
    (∃ nv ∈ ([("CHEF_IMAGE_TAG", "v1"), ("PREPPER_IMAGE_TAG", "v2")].filter
        (fun nv => matchesTagVar nv.1)),
      resolveOpt regChefV1 (var_to_repo nv.1) nv.2 = none) ∧
    isErr (resolverScript (some [("CHEF_IMAGE_TAG", "v1"), ("PREPPER_IMAGE_TAG", "v2")])
        true regChefV1).1 = true ∧
    resolverFileState (some [("CHEF_IMAGE_TAG", "v1"), ("PREPPER_IMAGE_TAG", "v2")])
        true regChefV1 (some "previous manifest bytes") = some "previous manifest bytes" :=
  ⟨by decide,
   resolver_all_or_nothing [("CHEF_IMAGE_TAG", "v1"), ("PREPPER_IMAGE_TAG", "v2")]
     true regChefV1 (some "previous manifest bytes") (by decide)⟩

/-- Claim C4: a value already matching the digest pattern is returned
unchanged by resolve_digest, with an empty registry query list, for every
registry oracle and repository. -/
theorem resolve_digest_passthrough (tag : String) (h : is_digest tag = true)
    (reg : String → String → Option String) (repo : String) :
    resolve_digest reg repo tag = (Except.ok tag, []) := by
  unfold resolve_digest
  rw [if_pos h]

/-- Claim C4, witness at a concrete digest against a registry that knows nothing. -/
theorem resolve_digest_passthrough_witness :
    is_digest D64a = true ∧
    resolve_digest (fun _ _ => none) "chef" D64a = (Except.ok D64a, []) :=
  ⟨by decide, resolve_digest_passthrough D64a (by decide) (fun _ _ => none) "chef"⟩

/-- Claim C5: a manifest file that exists but fails to parse is non-fatal:
the Loader returns exactly the value it would return with no manifest file
at all, and emits exactly one warning, whose text names the manifest file
image-manifest.json; an intact run emits no warning. -/
theorem loader_malformed_manifest_tolerant (repoName e : String)
    (env : String → Option String) :
    loadImageReference repoName (some (Except.error e)) env =
      ((loadImageReference repoName none env).1, [parseWarning e]) ∧
    (loadImageReference repoName none env).2 = [] ∧
    [parseWarning e].length = 1 ∧
    parseWarning e = "Warning: Failed to parse image-manifest.json: " ++ e :=
  ⟨rfl, rfl, rfl, rfl⟩

/-- Claim C6: with unusable registry credentials the Resolver fails up
front with the credentials error, issues no registry query at all, and the
manifest file is untouched, for every set of declared tags. -/
theorem resolver_creds_fail_fast (lines : List (String × String))
    (reg : String → String → Option String) (prior : Option String) :
    resolverScript (some lines) false reg =
      (Except.error "Error: AWS credentials not configured", []) ∧
    resolverFileState (some lines) false reg prior = prior :=
  ⟨rfl, rfl⟩

/-- Claim C7: on a fully successful run the Resolver overwrites the
manifest file with exactly one entry per declared service (keys are free
of duplicates under the stated hypothesis), each entry holding the
resolved digest together with the original tag, recorded as the input
value for a plain tag and as the literal "latest" when the input value was
already a digest. -/
theorem resolver_writes_full_manifest (lines : List (String × String))
    (reg : String → String → Option String) (prior : Option String)
    (hok : ∀ nv ∈ lines.filter (fun nv => matchesTagVar nv.1),
        (resolveOpt reg (var_to_repo nv.1) nv.2).isSome = true)
    (hnd : ((lines.filter (fun nv => matchesTagVar nv.1)).map
        (fun nv => var_to_repo nv.1)).Nodup) :
    (resolverScript (some lines) true reg).1 = Except.ok (resolvedEntries reg lines) ∧
    ((resolvedEntries reg lines).map Prod.fst).Nodup ∧
    resolverFileState (some lines) true reg prior =
      some (renderManifest (resolvedEntries reg lines)) := by
  have hmain : (resolverScript (some lines) true reg).1 =
      Except.ok (resolvedEntries reg lines) :=
    processLines_ok reg lines hok
  refine ⟨hmain, ?_, ?_⟩
  · unfold resolvedEntries
    rw [List.map_map]
    exact hnd
  · unfold resolverFileState
    rw [hmain]

/-- Claim C7, witness: chef declared with plain tag v1 and prepper declared
with a value that is already a digest; the run succeeds and overwrites a
pre-existing manifest. -/
theorem resolver_writes_full_manifest_witness :
    (∀ nv ∈ ([("CHEF_IMAGE_TAG", "v1"), ("PREPPER_IMAGE_TAG", D64b)].filter
        (fun nv => matchesTagVar nv.1)),
      (resolveOpt regChefV1 (var_to_repo nv.1) nv.2).isSome = true) ∧
    (resolverScript (some [("CHEF_IMAGE_TAG", "v1"), ("PREPPER_IMAGE_TAG", D64b)])
        true regChefV1).1 =
      Except.ok (resolvedEntries regChefV1
        [("CHEF_IMAGE_TAG", "v1"), ("PREPPER_IMAGE_TAG", D64b)]) ∧
    ((resolvedEntries regChefV1
        [("CHEF_IMAGE_TAG", "v1"), ("PREPPER_IMAGE_TAG", D64b)]).map Prod.fst).Nodup ∧
    resolverFileState (some [("CHEF_IMAGE_TAG", "v1"), ("PREPPER_IMAGE_TAG", D64b)])
        true regChefV1 (some "overwritten prior content") =
      some (renderManifest (resolvedEntries regChefV1
        [("CHEF_IMAGE_TAG", "v1"), ("PREPPER_IMAGE_TAG", D64b)])) :=
  ⟨by decide,
   resolver_writes_full_manifest [("CHEF_IMAGE_TAG", "v1"), ("PREPPER_IMAGE_TAG", D64b)]
     regChefV1 (some "overwritten prior content") (by decide) (by decide)⟩

/-- Claim C8: the service name derived from a variable of the form NAME
followed by _IMAGE_TAG is the name part with the suffix stripped and
ASCII-lowercased, so CHEF_IMAGE_TAG derives chef, matching the lowercase
manifest keys. -/
theorem var_to_repo_strips_and_lowercases :
    (∀ p : String, var_to_repo (p ++ "_IMAGE_TAG") = lcStr p) ∧
    var_to_repo "CHEF_IMAGE_TAG" = "chef" := by
  constructor
  · intro p
    have h10 : ("_IMAGE_TAG" : String).data.length = 10 := by decide
    have hsuf : strEndsWith (p ++ "_IMAGE_TAG") "_IMAGE_TAG" = true := by
      simp [strEndsWith]
    have hdata : (strDropRight (p ++ "_IMAGE_TAG") 10).data = p.data := by
      show (p ++ "_IMAGE_TAG").data.take ((p ++ "_IMAGE_TAG").data.length - 10) = p.data
      rw [String.data_append, List.length_append, h10, Nat.add_sub_cancel]
      exact List.take_left _ _
    rw [var_to_repo, if_pos hsuf]
    unfold lcStr
    rw [hdata]
  · decide

/-- Claim C9: with no .env file at the project root the Resolver fails
immediately with the .env error, for usable and unusable credentials
alike (so before the credentials check), issues no registry query, and
the manifest file is untouched. -/
theorem resolver_env_file_required (credsOk : Bool)
    (reg : String → String → Option String) (prior : Option String) :
    resolverScript none credsOk reg = (Except.error "Error: .env not found", []) ∧
    resolverFileState none credsOk reg prior = prior :=
  ⟨rfl, rfl⟩

/-- Claim C10: a .env line whose variable name does not match the filter
(uppercase ASCII letters followed by _IMAGE_TAG) is silently skipped: the
whole run, its outcome and its queries, is the same as if the line were
absent. -/
theorem resolver_skips_nonmatching_vars (credsOk : Bool)
    (reg : String → String → Option String)
    (pre post : List (String × String)) (name value : String)
    (h : matchesTagVar name = false) :
    resolverScript (some (pre ++ (name, value) :: post)) credsOk reg =
      resolverScript (some (pre ++ post)) credsOk reg := by
  unfold resolverScript
  by_cases hc : credsOk
  · simp only [hc, if_true]
    rw [processLines_filter reg (pre ++ (name, value) :: post),
      processLines_filter reg (pre ++ post)]
    congr 1
    simp [List.filter_append, List.filter_cons, h]
  · simp [hc]

/-- Claim C10, witness: the name CHEF2_IMAGE_TAG (digit in the name part)
and the name MY_SERVICE_IMAGE_TAG (extra underscore) fail the filter, and
a run on a .env consisting of such a line alone equals the run on an
empty .env. -/
theorem resolver_skips_nonmatching_vars_witness :
    matchesTagVar "CHEF2_IMAGE_TAG" = false ∧
    matchesTagVar "MY_SERVICE_IMAGE_TAG" = false ∧
    resolverScript (some [("CHEF2_IMAGE_TAG", "v9")]) true (fun _ _ => none) =
      resolverScript (some []) true (fun _ _ => none) :=
  ⟨by decide, by decide,
   resolver_skips_nonmatching_vars true (fun _ _ => none) [] [] "CHEF2_IMAGE_TAG" "v9"
     (by decide)⟩

end Kitchen
